import Mathlib

/-!
Verification of the anhaenger typed CAN message bus.

Shallow embedding of the Rust sources:
  - src/can-messages/src/lib.rs                       (CanId, PowerOff, BatteryData, CoolBox)
  - src/firmware/can-messages/can-messages-trait/src/lib.rs
                                                      (id_matches, try_decode, try_encode)
  - src/firmware/makita-ps/src/can.rs                 (typed receive and transmit tasks)
  - src/makita-ps/src/can.rs                          (raw-identifier receive task)
  - src/temp-controller/src/main.rs                   (PID duty clamping)
  - src/temp-controller/src/temperature.rs            (temperature sampling task)
  - src/makita-ps/src/vmon.rs                         (voltage monitor sampling task)
  - src/firmware/hdc1080-async/src/values.rs          (Temperature::degrees_10)

Machine integers are modelled as Nat / Int with explicit bounds and wrapping.
The wire codec is zerocopy IntoBytes / TryFromBytes on repr(C) structs: on the
little-endian Cortex-M target the byte image of a struct of u16 / i16 fields is
the fields in declaration order, each as two little-endian bytes, no padding.
Signed 16-bit fields are carried as their raw two-complement 16-bit patterns.
-/

namespace Anhaenger

/-- One payload byte. -/
abbrev Byte := Fin 256

/-- A raw 16-bit word: the bit pattern of a u16 or i16 field. -/
abbrev U16 := Fin 65536

/-- Low byte of a 16-bit word (little-endian byte 0). -/
def low_byte (n : U16) : Byte := ⟨n.val % 256, by omega⟩

/-- High byte of a 16-bit word (little-endian byte 1). -/
def high_byte (n : U16) : Byte := ⟨n.val / 256, by omega⟩

/-- Little-endian image of a 16-bit word, as laid out in memory on the target. -/
def u16_le_bytes (n : U16) : List Byte := [low_byte n, high_byte n]

/-- Rebuild a 16-bit word from its two little-endian bytes. -/
def read16_le (lo hi : Byte) : U16 := ⟨lo.val + 256 * hi.val, by omega⟩

/-- The CanId enum of src/can-messages/src/lib.rs. -/
inductive CanId where
  | POWEROFF
  | BATTERY
  | COOLBOX
deriving DecidableEq

/-- Numeric value of each CanId discriminant (repr(u16) in the source). -/
def CanId.toNat : CanId → Nat
  | .POWEROFF => 0b00000000001
  | .BATTERY => 0b00100010001
  | .COOLBOX => 0b00100100001

/-- A bus identifier as carried by an embassy frame: standard (11-bit) or
extended (29-bit). -/
inductive BusId where
  | standard (n : Nat)
  | extended (n : Nat)
deriving DecidableEq

/-- A CAN frame: identifier plus 0 to 8 payload bytes. -/
structure Frame where
  id : BusId
  data : List Byte
deriving DecidableEq

/-- StandardId::new returns the identifier only when it fits in 11 bits. -/
def standard_id_new (n : Nat) : Option Nat :=
  if n ≤ 0x7FF then some n else none

/-- Frame::new_standard: builds a standard frame; fails when the identifier
does not fit in 11 bits or the payload exceeds 8 bytes. -/
def Frame.new_standard (id : Nat) (data : List Byte) : Option Frame :=
  if id ≤ 0x7FF ∧ data.length ≤ 8 then some ⟨BusId.standard id, data⟩ else none

/-- The PowerOff unit struct (zero payload bytes). -/
structure PowerOff where
deriving DecidableEq

/-- The BatteryData telemetry struct: u16, i16, i16 fields in this order.
Signed fields are stored as raw 16-bit patterns. -/
structure BatteryData where
  battery_voltage_mv : U16
  output_voltage_mv : U16
  output_current_ma : U16
deriving DecidableEq

/-- The CoolBox struct: one i16 field, stored as a raw 16-bit pattern. -/
structure CoolBox where
  box_temperature_deg10 : U16
deriving DecidableEq

/-- IntoBytes for PowerOff: a zero-sized type has an empty byte image. -/
def PowerOff.as_bytes (_ : PowerOff) : List Byte := []

/-- IntoBytes for BatteryData: repr(C), no padding, fields in declaration
order, each field little-endian on the target. -/
def BatteryData.as_bytes (v : BatteryData) : List Byte :=
  u16_le_bytes v.battery_voltage_mv ++ u16_le_bytes v.output_voltage_mv ++
    u16_le_bytes v.output_current_ma

/-- IntoBytes for CoolBox. -/
def CoolBox.as_bytes (v : CoolBox) : List Byte :=
  u16_le_bytes v.box_temperature_deg10

/-- TryFromBytes for PowerOff: only the empty byte sequence is accepted. -/
def PowerOff.try_ref_from_bytes : List Byte → Option PowerOff
  | [] => some ⟨⟩
  | _ => none

/-- TryFromBytes for BatteryData: exactly 6 bytes; every bit pattern of the
integer fields is valid. -/
def BatteryData.try_ref_from_bytes : List Byte → Option BatteryData
  | [b0, b1, b2, b3, b4, b5] =>
      some ⟨read16_le b0 b1, read16_le b2 b3, read16_le b4 b5⟩
  | _ => none

/-- TryFromBytes for CoolBox: exactly 2 bytes; every bit pattern is valid. -/
def CoolBox.try_ref_from_bytes : List Byte → Option CoolBox
  | [b0, b1] => some ⟨read16_le b0 b1⟩
  | _ => none

/-- CanParseable::id_matches for a frame: compare against the standard
identifier built from the message type identifier, false when that
identifier is not a valid 11-bit standard identifier. -/
def id_matches (tid : Nat) (f : Frame) : Bool :=
  match standard_id_new tid with
  | some sid => decide (f.id = BusId.standard sid)
  | none => false

/-- IncomingCan::try_decode, specialised by the parse function of the
requested message type: parse the payload only when the identifier matches,
otherwise absence. -/
def try_decode {α : Type} (tid : Nat) (parse : List Byte → Option α) (f : Frame) : Option α :=
  if id_matches tid f then parse f.data else none

/-- try_decode at type PowerOff. -/
def Frame.try_decode_power_off (f : Frame) : Option PowerOff :=
  try_decode (CanId.toNat .POWEROFF) PowerOff.try_ref_from_bytes f

/-- try_decode at type BatteryData. -/
def Frame.try_decode_battery_data (f : Frame) : Option BatteryData :=
  try_decode (CanId.toNat .BATTERY) BatteryData.try_ref_from_bytes f

/-- try_decode at type CoolBox. -/
def Frame.try_decode_cool_box (f : Frame) : Option CoolBox :=
  try_decode (CanId.toNat .COOLBOX) CoolBox.try_ref_from_bytes f

/-- OutgoingCan::try_encode for PowerOff. -/
def PowerOff.try_encode (v : PowerOff) : Option Frame :=
  Frame.new_standard (CanId.toNat .POWEROFF) v.as_bytes

/-- OutgoingCan::try_encode for BatteryData. -/
def BatteryData.try_encode (v : BatteryData) : Option Frame :=
  Frame.new_standard (CanId.toNat .BATTERY) v.as_bytes

/-- OutgoingCan::try_encode for CoolBox. -/
def CoolBox.try_encode (v : CoolBox) : Option Frame :=
  Frame.new_standard (CanId.toNat .COOLBOX) v.as_bytes

/-- One iteration of the receive loop body of src/firmware/makita-ps/src/can.rs:
the read frame is decoded as PowerOff; on success the SHUTDOWN flag is stored
true, otherwise the flag is left unchanged. -/
def receive_step (shutdown : Bool) (f : Frame) : Bool :=
  match f.try_decode_power_off with
  | some _ => true
  | none => shutdown

/-- The power-off broadcast frame: POWEROFF identifier, empty payload. -/
def poweroff_frame : Frame := ⟨BusId.standard (CanId.toNat .POWEROFF), []⟩

/-- One iteration of the receive loop body of src/makita-ps/src/can.rs: the
SHUTDOWN flag is stored true whenever the frame identifier is the standard
POWEROFF identifier; the payload is never inspected. -/
def raw_receive_step (shutdown : Bool) (f : Frame) : Bool :=
  if f.id = BusId.standard (CanId.toNat .POWEROFF) then true else shutdown

/-- An observable action of the transmit loop body: aborting a previously
tracked mailbox handle, or submitting a new frame via try_write. -/
inductive TxAction where
  | abort (handle : Nat)
  | submit
deriving DecidableEq

/-- One iteration of the transmit loop body shared by
src/firmware/makita-ps/src/can.rs and src/temp-controller/src/can.rs.
Inputs: the tracked mailbox handle, the result of try_encode, and the handle
returned by try_write (none when the write fails). Output: the sequence of
bus actions performed, in program order, and the new tracked handle. When
encoding fails nothing happens; otherwise any tracked handle is taken and
aborted first, then the new frame is submitted, and the tracked handle
becomes the handle of the successful write, if any. -/
def transmit_cycle (mailbox : Option Nat) (encoded : Option Frame)
    (write_result : Option Nat) : List TxAction × Option Nat :=
  match encoded with
  | none => ([], mailbox)
  | some _ =>
    let aborts : List TxAction :=
      match mailbox with
      | some h => [TxAction.abort h]
      | none => []
    (aborts ++ [TxAction.submit], write_result)

/-- Truncation of an i32 value to i16, as performed by the Rust cast as i16. -/
def to_i16 (x : Int) : Int := (x + 32768) % 65536 - 32768

/-- Temperature::degrees_fp of src/firmware/hdc1080-async/src/values.rs:
the raw 16-bit sensor word r gives r as i32 * 165 - (1 shl 16) * 40, in units
of 2 ^ -16 degrees Celsius. -/
def degrees_fp (r : Nat) : Int := (r : Int) * 165 - 65536 * 40

/-- Temperature::degrees_10: tenths of a degree Celsius. Rust i32 division
truncates toward zero (Int.tdiv); the final cast as i16 truncates to 16 bits. -/
def degrees_10 (r : Nat) : Int := to_i16 ((degrees_fp r * 10).tdiv 65536)

/-- One iteration of the sampling loop body of
src/temp-controller/src/temperature.rs, after the timer. Input: the result of
sensor.read_async (raw temperature and humidity words, or a transport error).
Output: some v when the task stores v into TEMPERATURE and reaches the next
cycle; none when expect panics and the task never runs again. -/
def temperature_cycle (reading : Except Unit (Nat × Nat)) : Option Int :=
  match reading with
  | Except.ok (t, _) => some (degrees_10 t)
  | Except.error _ => none

/-- One iteration of the sampling loop body of src/makita-ps/src/vmon.rs.
Inputs: the results of the shunt-voltage and bus-voltage transactions (in
microvolts and millivolts). Output: some (OUTPUT_VOLTAGE_MV, OUTPUT_CURRENT_MA)
when the task stores both values and reaches the next cycle; none when expect
panics and the task never runs again. The shunt reading is cast as i16 and
divided by the 2 milliohm shunt resistance (truncating i16 division). -/
def vmon_cycle (shunt_uv : Except Unit Int) (bus_mv : Except Unit Int) :
    Option (Int × Int) :=
  match shunt_uv with
  | Except.error _ => none
  | Except.ok suv =>
    let out_i := (to_i16 suv).tdiv 2
    match bus_mv with
    | Except.error _ => none
    | Except.ok bmv => some (to_i16 bmv, out_i)

/-- Rust f32::clamp, modelled over the rationals: below the lower bound gives
the lower bound, above the upper bound gives the upper bound. -/
def rust_clamp (x lo hi : ℚ) : ℚ := if x < lo then lo else if x > hi then hi else x

/-- The duty computation of the control loop in src/temp-controller/src/main.rs:
duty = (-v.output).clamp(0.0, 100.0). The f32 arithmetic is modelled over the
rationals. -/
def pwm_duty (pid_output : ℚ) : ℚ := rust_clamp (-pid_output) 0 100

/-- The numerator passed to set_duty_cycle_fraction, with denominator 10000:
(duty * 100.0).round. -/
def pwm_duty_numerator (pid_output : ℚ) : ℤ := round (pwm_duty pid_output * 100)

/-! Helper lemmas. -/

/-- Decoding the two little-endian bytes of a word gives back the word. -/
theorem read16_le_of_u16_le (n : U16) : read16_le (low_byte n) (high_byte n) = n := by
  apply Fin.ext
  simp only [read16_le, low_byte, high_byte]
  omega

/-- For a valid 11-bit type identifier, id_matches is exactly equality of the
frame identifier with the standard identifier. -/
theorem id_matches_iff (tid : Nat) (h : tid ≤ 0x7FF) (f : Frame) :
    id_matches tid f = true ↔ f.id = BusId.standard tid := by
  simp [id_matches, standard_id_new, h]

/-- The BatteryData parser succeeds exactly on a 6-byte payload. -/
theorem battery_parse_isSome (bs : List Byte) :
    (BatteryData.try_ref_from_bytes bs).isSome ↔ bs.length = 6 := by
  rcases bs with _ | ⟨b0, _ | ⟨b1, _ | ⟨b2, _ | ⟨b3, _ | ⟨b4, _ | ⟨b5, _ | ⟨b6, tl⟩⟩⟩⟩⟩⟩⟩ <;>
    simp [BatteryData.try_ref_from_bytes]

/-- The PowerOff parser succeeds exactly on the empty payload. -/
theorem power_off_parse_isSome (bs : List Byte) :
    (PowerOff.try_ref_from_bytes bs).isSome ↔ bs.length = 0 := by
  rcases bs with _ | ⟨b0, tl⟩ <;> simp [PowerOff.try_ref_from_bytes]

/-- The CoolBox parser succeeds exactly on a 2-byte payload. -/
theorem cool_box_parse_isSome (bs : List Byte) :
    (CoolBox.try_ref_from_bytes bs).isSome ↔ bs.length = 2 := by
  rcases bs with _ | ⟨b0, _ | ⟨b1, _ | ⟨b2, tl⟩⟩⟩ <;> simp [CoolBox.try_ref_from_bytes]

/-- try_decode succeeds exactly when the identifier matches and the payload
parses. -/
theorem try_decode_isSome {α : Type} (tid : Nat) (h : tid ≤ 0x7FF)
    (parse : List Byte → Option α) (f : Frame) :
    (try_decode tid parse f).isSome ↔
      f.id = BusId.standard tid ∧ (parse f.data).isSome := by
  by_cases hid : f.id = BusId.standard tid
  · have hm : id_matches tid f = true := (id_matches_iff tid h f).2 hid
    simp [try_decode, hm, hid]
  · have hm : id_matches tid f = false := by
      rw [← Bool.not_eq_true, id_matches_iff tid h f]
      exact hid
    simp [try_decode, hm, hid]

/-! Claim theorems. -/

/-- C6: the three registered message identifiers POWEROFF, BATTERY and COOLBOX
are pairwise distinct, and each fits in 11 significant bits. -/
theorem spec_C6_identifier_registry :
    (CanId.toNat .POWEROFF ≠ CanId.toNat .BATTERY ∧
     CanId.toNat .POWEROFF ≠ CanId.toNat .COOLBOX ∧
     CanId.toNat .BATTERY ≠ CanId.toNat .COOLBOX) ∧
    (CanId.toNat .POWEROFF < 2 ^ 11 ∧
     CanId.toNat .BATTERY < 2 ^ 11 ∧
     CanId.toNat .COOLBOX < 2 ^ 11) := by
  decide

/-- C1 counterexample: encoding the record with battery voltage 12000 mV,
output voltage 5000 mV and output current 1500 mA does NOT produce the
big-endian payload 2E E0 13 88 05 DC claimed by the spec scenario; the
repr(C) zerocopy image on the little-endian target is little-endian. -/
theorem spec_C1_counterexample :
    ¬ (BatteryData.try_encode ⟨12000, 5000, 1500⟩ =
        some ⟨BusId.standard (CanId.toNat .BATTERY),
          [0x2E, 0xE0, 0x13, 0x88, 0x05, 0xDC]⟩) := by
  decide

/-- C1 amended: encoding the record with battery voltage 12000 mV, output
voltage 5000 mV and output current 1500 mA produces a frame whose identifier
is the registered BATTERY address and whose payload is the 6 little-endian
bytes E0 2E 88 13 DC 05, fields in the documented order. -/
theorem spec_C1_battery_encoding :
    BatteryData.try_encode ⟨12000, 5000, 1500⟩ =
      some ⟨BusId.standard (CanId.toNat .BATTERY),
        [0xE0, 0x2E, 0x88, 0x13, 0xDC, 0x05]⟩ := by
  decide

/-- C9: the raw receiver of src/makita-ps/src/can.rs sets the shutdown flag on
any frame carrying the standard POWEROFF identifier, whatever the payload,
while the typed decode path rejects a POWEROFF frame with a nonempty payload. -/
theorem spec_C9_raw_receive_ignores_payload :
    (∀ (s : Bool) (payload : List Byte),
        raw_receive_step s ⟨BusId.standard (CanId.toNat .POWEROFF), payload⟩ = true) ∧
    Frame.try_decode_power_off ⟨BusId.standard (CanId.toNat .POWEROFF), [0]⟩ = none := by
  constructor
  · intro s payload
    simp [raw_receive_step]
  · decide

/-- C4: the shutdown reaction of the typed receiver is idempotent and
monotonic: processing the power-off frame (POWEROFF identifier, empty payload)
sets the flag from any state; processing it twice equals processing it once;
a set flag survives any further frame; and it survives any sequence of further
frames. -/
theorem spec_C4_shutdown_monotonic :
    (∀ s : Bool, receive_step s poweroff_frame = true) ∧
    (∀ s : Bool,
        receive_step (receive_step s poweroff_frame) poweroff_frame =
          receive_step s poweroff_frame) ∧
    (∀ f : Frame, receive_step true f = true) ∧
    (∀ fs : List Frame, fs.foldl receive_step true = true) := by
  have hpo : ∀ s : Bool, receive_step s poweroff_frame = true := by
    intro s
    have : poweroff_frame.try_decode_power_off = some ⟨⟩ := by decide
    simp [receive_step, this]
  have hmono : ∀ f : Frame, receive_step true f = true := by
    intro f
    cases h : f.try_decode_power_off <;> simp [receive_step, h]
  refine ⟨hpo, fun s => by rw [hpo, hpo], hmono, ?_⟩
  intro fs
  induction fs with
  | nil => rfl
  | cons f fs ih => simp [List.foldl_cons, hmono f, ih]

/-- C5: in a transmit cycle that submits a frame while a previous handle is
still tracked, the actions are exactly abort of that handle followed by the
submit; with no tracked handle only the submit happens; a cycle whose encode
fails performs no action and keeps the tracked handle; and after any
submitting cycle the only tracked handle is the one returned by the new
write, so at most one transmission is software-tracked at any time. -/
theorem spec_C5_mailbox_abort_before_submit :
    (∀ (h : Nat) (fr : Frame) (w : Option Nat),
        (transmit_cycle (some h) (some fr) w).1 = [TxAction.abort h, TxAction.submit]) ∧
    (∀ (fr : Frame) (w : Option Nat),
        (transmit_cycle none (some fr) w).1 = [TxAction.submit]) ∧
    (∀ (mb : Option Nat) (w : Option Nat),
        (transmit_cycle mb none w).1 = [] ∧ (transmit_cycle mb none w).2 = mb) ∧
    (∀ (mb : Option Nat) (fr : Frame) (w : Option Nat),
        (transmit_cycle mb (some fr) w).2 = w) := by
  refine ⟨fun h fr w => rfl, fun fr w => rfl, fun mb w => ⟨rfl, rfl⟩, fun mb fr w => rfl⟩

/-- C7 counterexample: a transient sensor transaction failure in the
temperature sampling task is NOT retried on the next cycle: on an I2C error
the loop body never reaches the next cycle (expect panics the task). -/
theorem spec_C7_counterexample :
    ¬ (temperature_cycle (Except.error ())).isSome := by
  decide

/-- C7 amended: a failed peripheral transaction in a sampling task is fatal to
the task: on an error result the temperature loop body and the voltage-monitor
loop body panic via expect instead of retrying, while on success they store
the sampled values and continue to the next cycle. -/
theorem spec_C7_sampling_failure_fatal :
    temperature_cycle (Except.error ()) = none ∧
    (∀ t h : Nat, temperature_cycle (Except.ok (t, h)) = some (degrees_10 t)) ∧
    (∀ b : Except Unit Int, vmon_cycle (Except.error ()) b = none) ∧
    (∀ s : Int, vmon_cycle (Except.ok s) (Except.error ()) = none) ∧
    (∀ s b : Int, vmon_cycle (Except.ok s) (Except.ok b) =
        some (to_i16 b, (to_i16 s).tdiv 2)) := by
  exact ⟨rfl, fun t h => rfl, fun b => rfl, fun s => rfl, fun s b => rfl⟩

/-- C2: for every received frame and each registered message type, try_decode
returns a value exactly when the frame identifier equals the type identifier
and the payload has the fixed width of the type (every bit pattern of the
integer fields being valid); any other length is rejected by returning none. -/
theorem spec_C2_dispatch_correctness (f : Frame) :
    (f.try_decode_power_off.isSome ↔
        f.id = BusId.standard (CanId.toNat .POWEROFF) ∧ f.data.length = 0) ∧
    (f.try_decode_battery_data.isSome ↔
        f.id = BusId.standard (CanId.toNat .BATTERY) ∧ f.data.length = 6) ∧
    (f.try_decode_cool_box.isSome ↔
        f.id = BusId.standard (CanId.toNat .COOLBOX) ∧ f.data.length = 2) := by
  refine ⟨?_, ?_, ?_⟩
  · simp only [Frame.try_decode_power_off]
    rw [try_decode_isSome _ (by decide), power_off_parse_isSome]
  · simp only [Frame.try_decode_battery_data]
    rw [try_decode_isSome _ (by decide), battery_parse_isSome]
  · simp only [Frame.try_decode_cool_box]
    rw [try_decode_isSome _ (by decide), cool_box_parse_isSome]

/-- C3: for each registered message type, encoding any instance and decoding
the resulting frame gives back the instance. -/
theorem spec_C3_roundtrip :
    (∀ v : PowerOff, v.try_encode.bind Frame.try_decode_power_off = some v) ∧
    (∀ v : BatteryData, v.try_encode.bind Frame.try_decode_battery_data = some v) ∧
    (∀ v : CoolBox, v.try_encode.bind Frame.try_decode_cool_box = some v) := by
  refine ⟨?_, ?_, ?_⟩
  · intro v
    cases v
    decide
  · intro v
    simp [BatteryData.try_encode, Frame.new_standard, BatteryData.as_bytes, u16_le_bytes,
      CanId.toNat, Frame.try_decode_battery_data, try_decode, id_matches, standard_id_new,
      BatteryData.try_ref_from_bytes, read16_le_of_u16_le]
  · intro v
    simp [CoolBox.try_encode, Frame.new_standard, CoolBox.as_bytes, u16_le_bytes,
      CanId.toNat, Frame.try_decode_cool_box, try_decode, id_matches, standard_id_new,
      CoolBox.try_ref_from_bytes, read16_le_of_u16_le]

/-- C8: on every control-loop tick the duty applied to the PWM output lies in
the actuator range: the clamped duty is within 0 to 100 percent for every
possible controller output, and the numerator handed to
set_duty_cycle_fraction lies within its denominator 10000. -/
theorem spec_C8_duty_clamped (v : ℚ) :
    (0 ≤ pwm_duty v ∧ pwm_duty v ≤ 100) ∧
    (0 ≤ pwm_duty_numerator v ∧ pwm_duty_numerator v ≤ 10000) := by
  have hd : 0 ≤ pwm_duty v ∧ pwm_duty v ≤ 100 := by
    unfold pwm_duty rust_clamp
    split_ifs with h1 h2 <;> constructor <;> linarith
  refine ⟨hd, ?_, ?_⟩
  · rw [pwm_duty_numerator, round_eq]
    exact Int.floor_nonneg.2 (by linarith [hd.1])
  · rw [pwm_duty_numerator, round_eq]
    have hlt : ⌊pwm_duty v * 100 + 1 / 2⌋ < 10001 := by
      apply Int.floor_lt.2
      push_cast
      linarith [hd.2]
    omega

/-- Truncating division by 65536 of anything at most 81918350 is at most 1249. -/
theorem tdiv_65536_le_1249 {n : Int} (h : n ≤ 81918350) : n.tdiv 65536 ≤ 1249 := by
  rcases le_or_lt 0 n with hn | hn
  · rw [Int.tdiv_eq_ediv hn (by norm_num)]
    have hm := Int.ediv_le_ediv (b := 81918350) (c := 65536) (by norm_num) h
    have hc : (81918350 : Int) / 65536 = 1249 := by decide
    omega
  · have h1 : (0 : Int) ≤ -n := by omega
    have h2 : (0 : Int) ≤ (-n).tdiv 65536 := Int.tdiv_nonneg h1 (by norm_num)
    have h3 : (-n).tdiv 65536 = -(n.tdiv 65536) := Int.neg_tdiv n 65536
    omega

/-- Truncating division by 65536 of anything at least -26214400 is at least
-400. -/
theorem neg_400_le_tdiv_65536 {n : Int} (h : -26214400 ≤ n) : -400 ≤ n.tdiv 65536 := by
  rcases le_or_lt 0 n with hn | hn
  · have := Int.tdiv_nonneg hn (by norm_num : (0 : Int) ≤ 65536)
    omega
  · have h1 : (0 : Int) ≤ -n := by omega
    have h2 : -n ≤ 26214400 := by omega
    have h3 : (-n).tdiv 65536 ≤ 400 := by
      rw [Int.tdiv_eq_ediv h1 (by norm_num)]
      have hm := Int.ediv_le_ediv (b := 26214400) (c := 65536) (by norm_num) h2
      have hc : (26214400 : Int) / 65536 = 400 := by decide
      omega
    have h4 : (-n).tdiv 65536 = -(n.tdiv 65536) := Int.neg_tdiv n 65536
    omega

/-- C10: for every raw 16-bit sensor word, degrees_10 lies within -400 and
1249 tenths of a degree, and every intermediate i32 value of degrees_fp and
degrees_10 stays within the signed 32-bit range. -/
theorem spec_C10_degrees_range (r : Nat) (h : r < 65536) :
    (-400 ≤ degrees_10 r ∧ degrees_10 r ≤ 1249) ∧
    (-(2 ^ 31) ≤ degrees_fp r ∧ degrees_fp r < 2 ^ 31) ∧
    (-(2 ^ 31) ≤ degrees_fp r * 10 ∧ degrees_fp r * 10 < 2 ^ 31) := by
  have hx0 : (0 : Int) ≤ (r : Int) := Int.natCast_nonneg r
  have hx1 : (r : Int) ≤ 65535 := by omega
  have hlo : -26214400 ≤ degrees_fp r * 10 := by unfold degrees_fp; linarith
  have hhi : degrees_fp r * 10 ≤ 81918350 := by unfold degrees_fp; linarith
  have htd_lo := neg_400_le_tdiv_65536 hlo
  have htd_hi := tdiv_65536_le_1249 hhi
  have hto : to_i16 ((degrees_fp r * 10).tdiv 65536) = (degrees_fp r * 10).tdiv 65536 := by
    unfold to_i16
    omega
  refine ⟨⟨?_, ?_⟩, ⟨?_, ?_⟩, ⟨?_, ?_⟩⟩
  · rw [degrees_10, hto]; exact htd_lo
  · rw [degrees_10, hto]; exact htd_hi
  · unfold degrees_fp; norm_num; linarith
  · unfold degrees_fp; norm_num; linarith
  · norm_num; linarith
  · norm_num; linarith

/-- Witness for C10 at the raw word 12000. -/
theorem spec_C10_degrees_range_witness :
    (12000 : Nat) < 65536 ∧ (-400 ≤ degrees_10 12000 ∧ degrees_10 12000 ≤ 1249) :=
  ⟨by decide, (spec_C10_degrees_range 12000 (by decide)).1⟩

end Anhaenger
